import Mathlib

/-!
Shallow embedding of the form validation and field-binding engine of
`src/composables/useForm.ts` (a Vue 3 composable).  JavaScript runtime
values are modelled by the inductive `JSValue` (undefined, null, booleans,
integer numbers and strings; non-integer numbers and objects do not occur
in the verified scenarios).  JS objects used as string-keyed records are
modelled as association lists preserving insertion order, which matches
JS object key ordering for string keys.  Asynchronous validators
(`Promise`) are collapsed to their settled outcome: a validator is a total
function returning `Except Unit JSValue`, where `.error ()` stands for a
thrown exception or a rejected promise and `.ok r` for the resolved value.
-/

namespace UiForm

/-- A JavaScript runtime value, restricted to the shapes the engine
manipulates. -/
inductive JSValue where
  | undefined
  | null
  | bool (b : Bool)
  | num (n : Int)
  | str (s : String)
deriving DecidableEq, Repr

/-- JS truthiness (`!value` is `true` exactly on falsy values):
`undefined`, `null`, `false`, `0` and `''` are falsy. -/
def jsFalsy : JSValue → Bool
  | .undefined => true
  | .null => true
  | .bool b => !b
  | .num n => n == 0
  | .str s => s == ""

/-- The "absent" test of the `required` branch of `validateRule`
(line 85 of `useForm.ts`): `value === undefined || value === null ||
value === ''`. -/
def isAbsent (v : JSValue) : Bool :=
  v == .undefined || v == .null || v == .str ""

/-- JS `String(value)` coercion (used when a value reaches
`RegExp.test`). -/
def jsToString : JSValue → String
  | .undefined => "undefined"
  | .null => "null"
  | .bool b => if b then "true" else "false"
  | .num n => toString n
  | .str s => s

/-- Digits of a decimal numeral to its value. -/
def digitsToNat (cs : List Char) : Nat :=
  cs.foldl (fun acc c => acc * 10 + (c.toNat - 48)) 0

/-- Parse an optionally negated decimal integer literal; anything else
is `NaN` (`none`). -/
def parseIntChars : List Char → Option Int
  | [] => none
  | '-' :: cs =>
    if !cs.isEmpty && cs.all Char.isDigit then
      some (-(digitsToNat cs : Int))
    else none
  | cs =>
    if cs.all Char.isDigit then some ((digitsToNat cs : Int)) else none

/-- Strip leading and trailing whitespace. -/
def trimChars (cs : List Char) : List Char :=
  ((cs.dropWhile Char.isWhitespace).reverse.dropWhile
    Char.isWhitespace).reverse

/-- JS `Number(string)` coercion on the integer-literal fragment:
a whitespace-only string coerces to `0`, a (signed) decimal integer
literal to its value, anything else to `NaN` (modelled as `none`;
non-integer and non-decimal numeric literals are outside the modelled
value universe). -/
def strToNumber (s : String) : Option Int :=
  let t := trimChars s.data
  if t.isEmpty then some 0 else parseIntChars t

/-- JS `Number(value)` coercion; `none` stands for `NaN`. -/
def toNumber : JSValue → Option Int
  | .undefined => none
  | .null => some 0
  | .bool b => some (if b then 1 else 0)
  | .num n => some n
  | .str s => strToNumber s

/-- JS `value.length` as read by the length validators: strings have a
length, every other modelled value yields `undefined` (`none`). -/
def jsLength : JSValue → Option Int
  | .str s => some ((s.data.length : Int))
  | _ => none

/-- JS `a >= b` where `b` is a number: `a` is coerced to a number and a
`NaN` comparison is false. -/
def optGE (a : Option Int) (b : Int) : Bool :=
  match a with
  | some n => n >= b
  | none => false

/-- JS `a <= b` where `b` is a number, with `NaN` comparisons false. -/
def optLE (a : Option Int) (b : Int) : Bool :=
  match a with
  | some n => n <= b
  | none => false

/-- Whether a `JSValue` is a string (`typeof result === 'string'`). -/
def JSValue.isStr : JSValue → Bool
  | .str _ => true
  | _ => false

/-- JS `message || default` on an optional string: an omitted or empty
(falsy) message yields the default. -/
def msgOr (m : Option String) (d : String) : String :=
  match m with
  | some s => if s == "" then d else s
  | none => d

/-- A string-keyed JS record of field values. -/
abbrev Values := List (String × JSValue)

/-- JS `m[k] = v` on a record: an existing key is updated in place, a new
key is appended (JS insertion-order semantics). -/
def setKey {α : Type} (m : List (String × α)) (k : String) (v : α) :
    List (String × α) :=
  if m.any (fun p => p.1 == k) then
    m.map (fun p => if p.1 == k then (k, v) else p)
  else m ++ [(k, v)]

/-- JS `delete m[k]`. -/
def delKey {α : Type} (m : List (String × α)) (k : String) :
    List (String × α) :=
  m.filter (fun p => p.1 != k)

/-- JS record read `m[k]`, yielding `undefined` for a missing key. -/
def getv (m : Values) (k : String) : JSValue :=
  (m.lookup k).getD .undefined

/-- JS truthy read of a boolean record (`touched[name]`, `dirty[name]`):
a missing key is `undefined`, hence falsy. -/
def getb (m : List (String × Bool)) (k : String) : Bool :=
  (m.lookup k).getD false

/-- `FormRule` of `src/types` (`part_000`): `required?: boolean`,
`message?: string`, `validator?: (value) => boolean | string |
Promise<boolean | string>`.  The unused `trigger` field is omitted; the
validator's promise is collapsed to its settled `Except` outcome. -/
structure FormRule where
  required : Bool := false
  message : Option String := none
  validator : Option (JSValue → Except Unit JSValue) := none

/-- A rules entry is `FormRule | FormRule[]` (`FormRules` of
`src/types`). -/
inductive RuleSpec where
  | one (r : FormRule)
  | many (rs : List FormRule)

/-- `Array.isArray(rule) ? rule : [rule]` (line 68 of `useForm.ts`). -/
def RuleSpec.toList : RuleSpec → List FormRule
  | .one r => [r]
  | .many rs => rs

/-- The rule map `FormRules = Record<string, FormRule | FormRule[]>`;
an absent map is the empty list. -/
abbrev FormRules := List (String × RuleSpec)

/-- `validateRule`, lines 89-103 of `useForm.ts` (the custom-validator
part after the required guard): a validator resolving to `true` passes, a
string is the failure message, any other value (or a throw/rejection)
fails with `rule.message || '验证失败'`; no validator passes.
`none` models the return value `true`, `some msg` a failure message. -/
def runValidator (value : JSValue) (rule : FormRule) : Option String :=
  match rule.validator with
  | none => none
  | some f =>
    match f value with
    | .error _ => some (msgOr rule.message "验证失败")
    | .ok r =>
      if r == .bool true then none
      else match r with
        | .str s => some s
        | _ => some (msgOr rule.message "验证失败")

/-- `validateRule`, lines 83-104 of `useForm.ts`: the required guard
first (`rule.required && (value === undefined || value === null ||
value === '')` fails with `rule.message || '此字段为必填项'`), then the
custom-validator part. -/
def validateRule (value : JSValue) (rule : FormRule) : Option String :=
  if rule.required && isAbsent value then
    some (msgOr rule.message "此字段为必填项")
  else runValidator value rule

/-- The rule loop of `validateField` (lines 70-76): rules run in
declaration order and the first failure short-circuits. -/
def runRules (value : JSValue) : List FormRule → Option String
  | [] => none
  | r :: rs =>
    match validateRule value r with
    | some msg => some msg
    | none => runRules value rs

/-- The mutable engine state: `values`, `errors`, `touched`, `dirty` and
`submitting` of `useForm`.  `valid` is intentionally not a field: in the
source it is a `computed` with no setter, derived from `errors` alone. -/
structure FormState where
  values : Values
  errors : List (String × String)
  touched : List (String × Bool)
  dirty : List (String × Bool)
  submitting : Bool
deriving DecidableEq, Repr

/-- `validateField` (lines 62-80): no rule for the name succeeds
trivially; otherwise the first failing rule stores its message and
returns false, and an all-pass run deletes the field's error and returns
true. -/
def validateField (rules : FormRules) (name : String) (s : FormState) :
    FormState × Bool :=
  match rules.lookup name with
  | none => (s, true)
  | some spec =>
    match runRules (getv s.values name) spec.toList with
    | some msg => ({ s with errors := setKey s.errors name msg }, false)
    | none => ({ s with errors := delKey s.errors name }, true)

/-- The `Promise.all` join of `validate` (lines 107-115), sequentialised:
each field writes only its own error key and reads only `values`, so the
concurrent interleaving of the source is observationally this fold; the
result booleans are conjoined as by `results.every`. -/
def validateGo (rules : FormRules) :
    List (String × RuleSpec) → FormState × Bool → FormState × Bool
  | [], acc => acc
  | p :: l, acc =>
    let r := validateField rules p.1 acc.1
    validateGo rules l (r.1, acc.2 && r.2)

/-- `validate` (lines 107-115): run `validateField` for every key of the
rule map and return whether every field passed. -/
def validate (rules : FormRules) (s : FormState) : FormState × Bool :=
  validateGo rules rules (s, true)

/-- The construction-time state of `useForm` (lines 39-45): a copy of the
initial values, empty error/touched/dirty records, `submitting` false. -/
def initState (initialValues : Values) : FormState :=
  { values := initialValues, errors := [], touched := [], dirty := [],
    submitting := false }

/-- The deep watcher on `values` (lines 168-179): after `values`
mutates, every key whose current value differs (`!==`) from its
construction-time value is marked dirty. -/
def watchDirty (vals : Values) (initialValues : Values)
    (d : List (String × Bool)) : List (String × Bool) :=
  vals.foldl
    (fun d p =>
      if getv vals p.1 == getv initialValues p.1 then d
      else setKey d p.1 true)
    d

/-- The deep watcher applied to a state: see `watchDirty`. -/
def watchEffect (initialValues : Values) (s : FormState) : FormState :=
  { s with dirty := watchDirty s.values initialValues s.dirty }

/-- `setFieldValue` (lines 118-126): write the value, mark the field
dirty, and if the field was already touched immediately re-validate it;
the mutation of `values` then fires the deep watcher. -/
def setFieldValue (rules : FormRules) (initialValues : Values)
    (name : String) (v : JSValue) (s : FormState) : FormState :=
  let s1 := { s with values := setKey s.values name v,
                     dirty := setKey s.dirty name true }
  let s2 := if getb s1.touched name then (validateField rules name s1).1
            else s1
  watchEffect initialValues s2

/-- `setFieldError` (lines 129-131). -/
def setFieldError (name : String) (msg : String) (s : FormState) :
    FormState :=
  { s with errors := setKey s.errors name msg }

/-- `clearFieldError` (lines 134-136). -/
def clearFieldError (name : String) (s : FormState) : FormState :=
  { s with errors := delKey s.errors name }

/-- `touchField` (lines 139-141). -/
def touchField (name : String) (s : FormState) : FormState :=
  { s with touched := setKey s.touched name true }

/-- `Object.assign(values, initialValues)` (line 145): every key of the
source is written onto the target; keys of the target absent from the
source are left in place. -/
def assignAll (m : Values) (src : Values) : Values :=
  src.foldl (fun acc p => setKey acc p.1 p.2) m

/-- `reset` (lines 144-150): assign the initial values back onto
`values`, delete every error/touched/dirty key, clear `submitting`; the
mutation of `values` then fires the deep watcher. -/
def reset (initialValues : Values) (s : FormState) : FormState :=
  watchEffect initialValues
    { values := assignAll s.values initialValues
      errors := []
      touched := []
      dirty := []
      submitting := false }

/-- `submit` (lines 153-165): set `submitting`, run `validate`, call the
caller's `onSubmit` on the current values only when validation passed,
and clear `submitting` in a `finally`.  The callback's settled outcome is
an `Except String Unit` (`.error e` models a throw/rejection); `validate`
is total, so the `finally` collapses to clearing the flag on both the
normal and the exceptional path, and the second component is the outcome
`submit` itself settles with. -/
def submit (rules : FormRules) (s : FormState)
    (onSubmit : Values → Except String Unit) :
    FormState × Except String Unit :=
  let s1 := { s with submitting := true }
  let v := validate rules s1
  let outcome := if v.2 then onSubmit v.1.values else Except.ok ()
  ({ v.1 with submitting := false }, outcome)

/-- `ValidateStatus` of `src/types`. -/
inductive ValidateStatus where
  | success
  | warning
  | error
  | validating
deriving DecidableEq, Repr

/-- JS truthiness of the adapter's error view `form?.errors[name]`:
truthy iff an entry exists and is a nonempty string. -/
def errTruthy (e : Option String) : Bool :=
  match e with
  | some s => s != ""
  | none => false

/-- The derived status of `useFormField` (lines 216-222): `error` when
the error view is truthy, else `success` when touched (and no error),
else `validating`. -/
def fieldStatus (s : FormState) (name : String) : ValidateStatus :=
  if errTruthy (s.errors.lookup name) then .error
  else if getb s.touched name && !errTruthy (s.errors.lookup name) then
    .success
  else .validating

/-- The derived `valid` computed (lines 48-50):
`Object.keys(errors).length === 0`. -/
def validOf (s : FormState) : Bool := s.errors.isEmpty

/-- The aggregate `formState` computed (lines 52-59), whose `valid` field
is filled from the derived computed. -/
structure FormStateSnap where
  values : Values
  errors : List (String × String)
  touched : List (String × Bool)
  dirty : List (String × Bool)
  valid : Bool
  submitting : Bool

/-- Build the `formState` snapshot from the engine state. -/
def formState (s : FormState) : FormStateSnap :=
  { values := s.values, errors := s.errors, touched := s.touched,
    dirty := s.dirty, valid := validOf s, submitting := s.submitting }

/-- Is `cs` a nonempty run of characters matching `[^\s@]`? -/
def emailChunk (cs : List Char) : Bool :=
  !cs.isEmpty && cs.all (fun c => !c.isWhitespace && c != '@')

/-- Does `acc.reverse ++ rest` decompose as `[^\s@]+\.[^\s@]+` with the
dot inside `rest`'s scan?  Explores every position of a `'.'`. -/
def emailDomainAux : List Char → List Char → Bool
  | _, [] => false
  | acc, c :: rest =>
    (c == '.' && emailChunk acc.reverse && emailChunk rest) ||
      emailDomainAux (c :: acc) rest

/-- The anchored test of `/^[^\s@]+@[^\s@]+\.[^\s@]+$/` (line 266 of
`useForm.ts`): exactly one `@`, a nonempty non-whitespace local part, and
a domain splitting at some `.` into two nonempty non-whitespace parts. -/
def emailRegexTest (s : String) : Bool :=
  match s.data.splitOn '@' with
  | [localPart, domainPart] =>
    emailChunk localPart && emailDomainAux [] domainPart
  | _ => false

/-- `validators.required` (lines 257-260).  The TS parameter defaults to
`'此字段为必填项'`; callers of the model pass the message explicitly. -/
def validators.required (message : String) : FormRule :=
  { required := true, message := some message }

/-- `validators.email` (lines 262-269); the TS message parameter
defaults to `'请输入有效的邮箱地址'`.  `!value` short-circuits on falsy
values; otherwise `emailRegex.test(value) || message`. -/
def validators.email (message : String) : FormRule :=
  { validator := some (fun value =>
      if jsFalsy value then .ok (.bool true)
      else if emailRegexTest (jsToString value) then .ok (.bool true)
      else .ok (.str message)) }

/-- `validators.minLength` (lines 271-277): falsy values pass, otherwise
`value.length >= min || message || '最少输入N个字符'`. -/
def validators.minLength (n : Int) (message : Option String) : FormRule :=
  { validator := some (fun value =>
      if jsFalsy value then .ok (.bool true)
      else if optGE (jsLength value) n then .ok (.bool true)
      else .ok (.str (msgOr message ("最少输入" ++ toString n ++ "个字符")))) }

/-- `validators.maxLength` (lines 279-285): falsy values pass, otherwise
`value.length <= max || message || '最多输入N个字符'`. -/
def validators.maxLength (n : Int) (message : Option String) : FormRule :=
  { validator := some (fun value =>
      if jsFalsy value then .ok (.bool true)
      else if optLE (jsLength value) n then .ok (.bool true)
      else .ok (.str (msgOr message ("最多输入" ++ toString n ++ "个字符")))) }

/-- `validators.pattern` (lines 287-293); the `RegExp` is abstracted as
its test function on the coerced string; the TS message parameter
defaults to `'格式不正确'`. -/
def validators.pattern (test : String → Bool) (message : String) :
    FormRule :=
  { validator := some (fun value =>
      if jsFalsy value then .ok (.bool true)
      else if test (jsToString value) then .ok (.bool true)
      else .ok (.str message)) }

/-- `validators.number` (lines 295-301): `''`, `null` and `undefined`
pass, otherwise `!isNaN(Number(value)) || message`; the TS message
parameter defaults to `'请输入有效的数字'`. -/
def validators.number (message : String) : FormRule :=
  { validator := some (fun value =>
      if value == .str "" || value == .null || value == .undefined then
        .ok (.bool true)
      else if (toNumber value).isSome then .ok (.bool true)
      else .ok (.str message)) }

/-- `validators.min` (lines 303-309): only `null` and `undefined` pass
unconditionally; any other value is compared by JS `value >= min` (which
coerces, so `''` compares as `0`), failing with
`message || '值不能小于N'`. -/
def validators.min (n : Int) (message : Option String) : FormRule :=
  { validator := some (fun value =>
      if value == .null || value == .undefined then .ok (.bool true)
      else if optGE (toNumber value) n then .ok (.bool true)
      else .ok (.str (msgOr message ("值不能小于" ++ toString n)))) }

/-- `validators.max` (lines 311-317): only `null` and `undefined` pass
unconditionally; any other value is compared by JS `value <= max`,
failing with `message || '值不能大于N'`. -/
def validators.max (n : Int) (message : Option String) : FormRule :=
  { validator := some (fun value =>
      if value == .null || value == .undefined then .ok (.bool true)
      else if optLE (toNumber value) n then .ok (.bool true)
      else .ok (.str (msgOr message ("值不能大于" ++ toString n)))) }

/-- The states of one `useForm` engine reachable from construction with
`initialValues` and `rules` by any sequence of the exported operations
(each asynchronous operation taken at its settled point, and the deep
watcher applied after every mutation of `values`). -/
inductive Reachable (initialValues : Values) (rules : FormRules) :
    FormState → Prop where
  | init : Reachable initialValues rules (initState initialValues)
  | stepSetValue (s : FormState) (name : String) (v : JSValue) :
      Reachable initialValues rules s →
      Reachable initialValues rules
        (setFieldValue rules initialValues name v s)
  | stepSetError (s : FormState) (name msg : String) :
      Reachable initialValues rules s →
      Reachable initialValues rules (setFieldError name msg s)
  | stepClearError (s : FormState) (name : String) :
      Reachable initialValues rules s →
      Reachable initialValues rules (clearFieldError name s)
  | stepTouch (s : FormState) (name : String) :
      Reachable initialValues rules s →
      Reachable initialValues rules (touchField name s)
  | stepValidateField (s : FormState) (name : String) :
      Reachable initialValues rules s →
      Reachable initialValues rules (validateField rules name s).1
  | stepValidate (s : FormState) :
      Reachable initialValues rules s →
      Reachable initialValues rules (validate rules s).1
  | stepReset (s : FormState) :
      Reachable initialValues rules s →
      Reachable initialValues rules (reset initialValues s)
  | stepSubmit (s : FormState) (cb : Values → Except String Unit) :
      Reachable initialValues rules s →
      Reachable initialValues rules (submit rules s cb).1

/-- Whether field `n` currently passes its configured rules (trivially
true when no rule is configured), as a function of the rule map and the
current values alone. -/
def fieldPasses (rules : FormRules) (vals : Values) (n : String) : Bool :=
  match rules.lookup n with
  | none => true
  | some spec => (runRules (getv vals n) spec.toList).isNone

/-- The rule map of the spec's email scenario:
`{email: [required(), email()]}` with the TS default messages. -/
def emailRules : FormRules :=
  [("email", RuleSpec.many
      [validators.required "此字段为必填项",
       validators.email "请输入有效的邮箱地址"])]

/-- The email scenario's construction state (`{email: ''}`). -/
def emailScenario0 : FormState := initState [("email", JSValue.str "")]

/-- The email scenario after the failed validation and
`setFieldValue('email', 'a@b.com')`. -/
def emailScenario1 : FormState :=
  setFieldValue emailRules [("email", JSValue.str "")] "email"
    (JSValue.str "a@b.com")
    (validateField emailRules "email" emailScenario0).1

/-- A demonstration construction-time snapshot with two fields. -/
def demoInit : Values := [("a", JSValue.num 1), ("b", JSValue.str "x")]

/-- A mutated state over `demoInit` whose value keys are still exactly
the construction-time keys. -/
def demoMutated : FormState :=
  { values := [("a", JSValue.num 2), ("b", JSValue.str "y")],
    errors := [("a", "server error")],
    touched := [("a", true)],
    dirty := [("b", true)],
    submitting := true }

/-- A rule whose validator always throws. -/
def throwRule : FormRule :=
  { message := some "oops", validator := some (fun _ => Except.error ()) }

/-- A rule whose validator resolves to `false` (neither `true` nor a
string). -/
def falseResultRule : FormRule :=
  { validator := some (fun _ => Except.ok (JSValue.bool false)) }

/- ------------------------------------------------------------------ -/
/- Helper lemmas                                                      -/
/- ------------------------------------------------------------------ -/

theorem validateField_fst_values (rules : FormRules) (name : String)
    (s : FormState) : (validateField rules name s).1.values = s.values := by
  unfold validateField
  rcases h : rules.lookup name with _ | spec
  · simp [h]
  · rcases hr : runRules (getv s.values name) spec.toList with _ | m <;>
      simp [h, hr]

theorem validateField_snd (rules : FormRules) (name : String)
    (s : FormState) :
    (validateField rules name s).2 = fieldPasses rules s.values name := by
  unfold validateField fieldPasses
  rcases h : rules.lookup name with _ | spec
  · simp [h]
  · rcases hr : runRules (getv s.values name) spec.toList with _ | m <;>
      simp [h, hr]

theorem validateGo_values (rules : FormRules) (l : List (String × RuleSpec)) :
    ∀ (s : FormState) (b : Bool),
      (validateGo rules l (s, b)).1.values = s.values := by
  induction l with
  | nil => intro s b; rfl
  | cons p l ih =>
    intro s b
    simp only [validateGo]
    rw [ih, validateField_fst_values]

theorem validateGo_snd (rules : FormRules) (l : List (String × RuleSpec)) :
    ∀ (s : FormState) (b : Bool),
      (validateGo rules l (s, b)).2 =
        (b && l.all (fun p => fieldPasses rules s.values p.1)) := by
  induction l with
  | nil => intro s b; simp [validateGo]
  | cons p l ih =>
    intro s b
    simp only [validateGo, List.all_cons]
    rw [ih, validateField_fst_values, validateField_snd, Bool.and_assoc]

theorem runRules_append_pass (v : JSValue) (pre l : List FormRule)
    (hpre : ∀ r' ∈ pre, validateRule v r' = none) :
    runRules v (pre ++ l) = runRules v l := by
  induction pre with
  | nil => rfl
  | cons r pre ih =>
    simp only [List.cons_append, runRules]
    rw [hpre r (by simp)]
    exact ih (fun r' h => hpre r' (by simp [h]))

theorem runRules_all_pass (v : JSValue) (l : List FormRule)
    (h : ∀ r' ∈ l, validateRule v r' = none) : runRules v l = none := by
  induction l with
  | nil => rfl
  | cons r l ih =>
    simp only [runRules]
    rw [h r (by simp)]
    exact ih (fun r' h' => h r' (by simp [h']))

theorem setKey_cons_ne {α : Type} (k k' : String) (v v' : α)
    (m : List (String × α)) (h : k ≠ k') :
    setKey ((k, v) :: m) k' v' = (k, v) :: setKey m k' v' := by
  unfold setKey
  simp only [List.any_cons, beq_iff_eq, h, Bool.false_or,
    decide_eq_true_eq]
  cases ha : m.any (fun p => p.1 == k') <;>
    simp [ha, List.map_cons, h]

theorem map_setKey_not_mem {α : Type} (m : List (String × α)) (k : String)
    (v : α) (h : k ∉ m.map Prod.fst) :
    m.map (fun p => if p.1 == k then (k, v) else p) = m := by
  induction m with
  | nil => rfl
  | cons p m ih =>
    simp only [List.map_cons, List.mem_cons] at h
    push_neg at h
    have hp : (p.1 == k) = false := by
      simp [Ne.symm h.1]
    simp only [List.map_cons, hp, Bool.false_eq_true, if_false]
    rw [ih h.2]

theorem setKey_head {α : Type} (k : String) (v w : α)
    (m : List (String × α)) (h : k ∉ m.map Prod.fst) :
    setKey ((k, w) :: m) k v = (k, v) :: m := by
  unfold setKey
  simp only [List.any_cons, beq_self_eq_true, Bool.true_or, if_true,
    List.map_cons, if_pos]
  rw [map_setKey_not_mem m k v h]

theorem assignAll_cons (m : Values) (p : String × JSValue) (src : Values) :
    assignAll m (p :: src) = assignAll (setKey m p.1 p.2) src := rfl

theorem assignAll_cons_out (k : String) (v : JSValue) :
    ∀ (src m : Values), k ∉ src.map Prod.fst →
      assignAll ((k, v) :: m) src = (k, v) :: assignAll m src := by
  intro src
  induction src with
  | nil => intro m _; rfl
  | cons p src ih =>
    intro m h
    simp only [List.map_cons, List.mem_cons] at h
    push_neg at h
    rw [assignAll_cons, setKey_cons_ne k p.1 v p.2 m h.1,
      ih (setKey m p.1 p.2) h.2, assignAll_cons]

theorem assignAll_restores :
    ∀ (src : Values), (src.map Prod.fst).Nodup →
      ∀ m : Values, m.map Prod.fst = src.map Prod.fst →
        assignAll m src = src := by
  intro src
  induction src with
  | nil =>
    intro _ m h
    simp only [List.map_nil, List.map_eq_nil_iff] at h
    rw [h]
    rfl
  | cons p src ih =>
    intro hnd m h
    obtain ⟨k, v⟩ := p
    match m with
    | [] => simp at h
    | (k', w) :: m' =>
      simp only [List.map_cons, List.cons.injEq] at h
      obtain ⟨hk, hm⟩ := h
      subst hk
      simp only [List.map_cons, List.nodup_cons] at hnd
      obtain ⟨hknot, hnd'⟩ := hnd
      have hknotm' : k' ∉ m'.map Prod.fst := by
        rw [hm]; exact hknot
      rw [assignAll_cons]
      simp only
      rw [setKey_head k' v w m' hknotm',
        assignAll_cons_out k' v src m' hknot, ih hnd' m' hm]

theorem foldl_watch_id (vals initialValues : Values)
    (h : ∀ k, getv vals k = getv initialValues k) :
    ∀ (l : Values) (d : List (String × Bool)),
      List.foldl
        (fun d p =>
          if getv vals p.1 == getv initialValues p.1 then d
          else setKey d p.1 true) d l = d := by
  intro l
  induction l with
  | nil => intro d; rfl
  | cons p l ih =>
    intro d
    simp only [List.foldl_cons, h p.1, beq_self_eq_true, if_true]
    exact ih d

theorem watchDirty_id (vals initialValues : Values)
    (h : ∀ k, getv vals k = getv initialValues k)
    (d : List (String × Bool)) : watchDirty vals initialValues d = d :=
  foldl_watch_id vals initialValues h vals d

/- ------------------------------------------------------------------ -/
/- Claim theorems                                                     -/
/- ------------------------------------------------------------------ -/

/-- C1: in every reachable state of the form engine, the derived `valid`
flag of the `formState` snapshot is true iff the `errors` record is
empty.  No operation can set `valid` directly: `valid` is not a field of
the engine state at all — it is computed from `errors` alone (lines
48-50 of `useForm.ts`), which the embedding reflects by `FormState`
having no `valid` field and `formState` deriving it via `validOf`. -/
theorem valid_iff_errors_empty (initialValues : Values)
    (rules : FormRules) (s : FormState)
    (_hre : Reachable initialValues rules s) :
    (formState s).valid = true ↔ (formState s).errors = [] := by
  rcases s with ⟨v, e, t, d, sub⟩
  cases e <;> simp [formState, validOf, List.isEmpty]

/-- Witness for C1 at the construction state of the email scenario. -/
theorem valid_iff_errors_empty_witness :
    (formState emailScenario0).valid = true ↔
      (formState emailScenario0).errors = [] :=
  valid_iff_errors_empty [("email", JSValue.str "")] emailRules
    emailScenario0 Reachable.init

/-- C2: `submit(onSubmit)` always clears `submitting` to false, and its
settled outcome is exactly the callback's outcome when `validate()`
passed and a normal return otherwise.  In particular a throw/rejection of
`onSubmit` (`cb s.values = .error e`) propagates unswallowed to the
caller of `submit` with the flag already cleared, and when `validate()`
fails or `onSubmit` resolves, `submit` settles normally with the flag
cleared. -/
theorem submit_clears_submitting_and_propagates (rules : FormRules)
    (s : FormState) (cb : Values → Except String Unit) :
    (submit rules s cb).1.submitting = false ∧
    (submit rules s cb).2 =
      (if (validate rules { s with submitting := true }).2 then cb s.values
       else Except.ok ()) := by
  constructor
  · rfl
  · show (if (validate rules { s with submitting := true }).2 then
        cb (validate rules { s with submitting := true }).1.values
      else Except.ok ()) = _
    unfold validate
    rw [validateGo_values]

/-- C3 counterexample: starting from initial values `{a: 1}`, the single
listed operation `setFieldValue('b', 2)` followed by `reset()` leaves
`values = {a: 1, b: 2}`, not the construction-time snapshot `{a: 1}`
(`Object.assign` never removes keys), and the deep watcher re-marks `b`
dirty, so `dirty` is not empty either. -/
theorem reset_extra_key_counterexample :
    ((reset [("a", JSValue.num 1)]
        (setFieldValue [] [("a", JSValue.num 1)] "b" (JSValue.num 2)
          (initState [("a", JSValue.num 1)]))).values ≠
      [("a", JSValue.num 1)]) ∧
    ((reset [("a", JSValue.num 1)]
        (setFieldValue [] [("a", JSValue.num 1)] "b" (JSValue.num 2)
          (initState [("a", JSValue.num 1)]))).dirty ≠ []) := by
  decide

/-- C3 amended: provided every value key still equals the
construction-time key set (i.e. no `setFieldValue` ever used a name
outside the initial snapshot), `reset()` restores the state to exactly
the construction state: `values` equals the snapshot, `errors`,
`touched` and `dirty` are empty, `submitting` is false, and no
validation is re-triggered (no error entry is produced). -/
theorem reset_restores_snapshot (initialValues : Values) (s : FormState)
    (hnd : (initialValues.map Prod.fst).Nodup)
    (hkeys : s.values.map Prod.fst = initialValues.map Prod.fst) :
    reset initialValues s = initState initialValues := by
  unfold reset
  rw [assignAll_restores initialValues hnd s.values hkeys]
  unfold watchEffect
  simp only
  rw [watchDirty_id initialValues initialValues (fun _ => rfl) []]
  rfl

/-- Witness for C3's amended claim on a concrete mutated state whose
value keys are exactly the construction-time keys. -/
theorem reset_restores_snapshot_witness :
    ((demoInit.map Prod.fst).Nodup ∧
      demoMutated.values.map Prod.fst = demoInit.map Prod.fst) ∧
    reset demoInit demoMutated = initState demoInit :=
  ⟨⟨by decide, by decide⟩,
    reset_restores_snapshot demoInit demoMutated (by decide) (by decide)⟩

/-- C4: for a field with configured rules, `validateField` runs them in
declaration order; the first failing rule stores its message under the
field's name and returns false irrespective of the rules after it
(short-circuit, expressed by quantifying over the suffix `post`), and an
all-pass run deletes any existing error for the field and returns
true. -/
theorem validateField_order_shortcircuit (rules : FormRules)
    (name : String) (s : FormState) (spec : RuleSpec)
    (hlk : rules.lookup name = some spec) :
    (∀ (pre : List FormRule) (r : FormRule) (post : List FormRule)
        (m : String),
      spec.toList = pre ++ r :: post →
      (∀ r' ∈ pre, validateRule (getv s.values name) r' = none) →
      validateRule (getv s.values name) r = some m →
      validateField rules name s =
        ({ s with errors := setKey s.errors name m }, false)) ∧
    ((∀ r' ∈ spec.toList, validateRule (getv s.values name) r' = none) →
      validateField rules name s =
        ({ s with errors := delKey s.errors name }, true)) := by
  constructor
  · intro pre r post m hdec hpre hr
    have hrun : runRules (getv s.values name) spec.toList = some m := by
      rw [hdec, runRules_append_pass _ _ _ hpre]
      simp only [runRules]
      rw [hr]
    simp [validateField, hlk, hrun]
  · intro hall
    have hrun : runRules (getv s.values name) spec.toList = none :=
      runRules_all_pass _ _ hall
    simp [validateField, hlk, hrun]

/-- Witness for C4: the spec's email scenario.  With `{email: ''}` and
rules `[required(), email()]`, `validateField('email')` fails and stores
the required message (the required rule short-circuits the email rule);
after `setFieldValue('email', 'a@b.com')` revalidation passes and clears
the error. -/
theorem validateField_order_shortcircuit_witness :
    validateField emailRules "email" emailScenario0 =
      ({ emailScenario0 with errors := [("email", "此字段为必填项")] },
        false) ∧
    validateField emailRules "email" emailScenario1 =
      ({ emailScenario1 with errors := [] }, true) := by
  constructor
  · have h :=
      (validateField_order_shortcircuit emailRules "email" emailScenario0
          _ rfl).1
        [] (validators.required "此字段为必填项")
        [validators.email "请输入有效的邮箱地址"] "此字段为必填项" rfl
        (by intro r' hr'; simp at hr') (by decide)
    exact h.trans (by decide)
  · have h :=
      (validateField_order_shortcircuit emailRules "email" emailScenario1
          _ rfl).2 (by decide)
    exact h.trans (by decide)

/-- C5: for a rule with `required` set, validation at an absent value
(`undefined`, `null` or `''`) fails with the rule's configured message
(or the default required message when none or an empty one is
configured); at any other value the required guard passes and evaluation
falls through to the custom-validator part, so in particular a required
rule with no validator succeeds. -/
theorem required_rule_absent_fails (rule : FormRule) (v : JSValue)
    (hreq : rule.required = true) :
    (isAbsent v = true →
      validateRule v rule = some (msgOr rule.message "此字段为必填项")) ∧
    (isAbsent v = false →
      validateRule v rule = runValidator v rule) ∧
    (isAbsent v = false → rule.validator = none →
      validateRule v rule = none) := by
  refine ⟨?_, ?_, ?_⟩
  · intro h
    simp [validateRule, hreq, h]
  · intro h
    simp [validateRule, hreq, h]
  · intro h hv
    simp [validateRule, hreq, h, runValidator, hv]

/-- Witness for C5 at a required rule with configured message `"m"`:
`null` fails with `"m"` and the non-absent value `0` passes. -/
theorem required_rule_absent_fails_witness :
    validateRule JSValue.null (validators.required "m") = some "m" ∧
    validateRule (JSValue.num 0) (validators.required "m") = none := by
  constructor
  · have h :=
      (required_rule_absent_fails (validators.required "m") JSValue.null
          rfl).1 rfl
    exact h.trans (by decide)
  · exact (required_rule_absent_fails (validators.required "m")
      (JSValue.num 0) rfl).2.2 rfl rfl

/-- C6: a caller-supplied validator that throws (or returns a rejecting
promise) is treated by `validateField` as an ordinary validation failure
with the rule's configured message (or the default `'验证失败'`): the
field's error is set to that message and `validateField` returns false.
The exception never propagates: the embedding of `validateField` is a
total function with no exception channel, because the source's
`try`/`catch` (lines 91-100) consumes it. -/
theorem validator_exception_fails_with_message (rules : FormRules)
    (name : String) (s : FormState) (rule : FormRule)
    (f : JSValue → Except Unit JSValue)
    (hlk : rules.lookup name = some (.one rule))
    (hval : rule.validator = some f)
    (hthrow : f (getv s.values name) = .error ())
    (hreq : (rule.required && isAbsent (getv s.values name)) = false) :
    validateField rules name s =
      ({ s with
          errors := setKey s.errors name (msgOr rule.message "验证失败") },
        false) := by
  have hvr : validateRule (getv s.values name) rule =
      some (msgOr rule.message "验证失败") := by
    simp [validateRule, hreq, runValidator, hval, hthrow]
  have hrun : runRules (getv s.values name) (RuleSpec.one rule).toList =
      some (msgOr rule.message "验证失败") := by
    simp [RuleSpec.toList, runRules, hvr]
  simp [validateField, hlk, hrun]

/-- Witness for C6: a throwing validator with configured message
`"oops"` marks the field failed with `"oops"`. -/
theorem validator_exception_witness :
    validateField [("f", RuleSpec.one throwRule)] "f"
        (initState [("f", JSValue.str "x")]) =
      ({ initState [("f", JSValue.str "x")] with
          errors := [("f", "oops")] }, false) := by
  have h := validator_exception_fails_with_message
    [("f", RuleSpec.one throwRule)] "f" (initState [("f", JSValue.str "x")])
    throwRule (fun _ => Except.error ()) rfl rfl rfl rfl
  exact h.trans (by decide)

/-- C7 counterexample: the `min` and `max` factories do NOT treat the
empty string as passing.  Their validators only short-circuit on `null`
and `undefined` (lines 305, 313); `''` reaches the JS comparison, is
coerced to `0`, and fails `min(1)` (and `max(-1)`) with the default
message. -/
theorem min_max_reject_empty_string :
    validateRule (JSValue.str "") (validators.min 1 none) =
      some "值不能小于1" ∧
    validateRule (JSValue.str "") (validators.max (-1) none) =
      some "值不能大于-1" := by
  decide

/-- C7 amended: `email`, `minLength`, `maxLength`, `pattern` and
`number` treat each absent/empty value (`undefined`, `null`, `''`) as
passing, for every message (and bound, and pattern-test) parameter; `min`
and `max` treat only `undefined` and `null` as passing — the empty
string is instead numerically coerced to `0` and compared against the
bound (so it fails `min(m)` for positive `m` and `max(M)` for negative
`M`, as the counterexample shows). -/
theorem rule_factories_absent_passing :
    (∀ msg, validateRule JSValue.undefined (validators.email msg) = none ∧
      validateRule JSValue.null (validators.email msg) = none ∧
      validateRule (JSValue.str "") (validators.email msg) = none) ∧
    (∀ n msg,
      validateRule JSValue.undefined (validators.minLength n msg) = none ∧
      validateRule JSValue.null (validators.minLength n msg) = none ∧
      validateRule (JSValue.str "") (validators.minLength n msg) = none) ∧
    (∀ n msg,
      validateRule JSValue.undefined (validators.maxLength n msg) = none ∧
      validateRule JSValue.null (validators.maxLength n msg) = none ∧
      validateRule (JSValue.str "") (validators.maxLength n msg) = none) ∧
    (∀ test msg,
      validateRule JSValue.undefined (validators.pattern test msg) = none ∧
      validateRule JSValue.null (validators.pattern test msg) = none ∧
      validateRule (JSValue.str "") (validators.pattern test msg) = none) ∧
    (∀ msg, validateRule JSValue.undefined (validators.number msg) = none ∧
      validateRule JSValue.null (validators.number msg) = none ∧
      validateRule (JSValue.str "") (validators.number msg) = none) ∧
    (∀ n msg, validateRule JSValue.undefined (validators.min n msg) = none ∧
      validateRule JSValue.null (validators.min n msg) = none) ∧
    (∀ n msg, validateRule JSValue.undefined (validators.max n msg) = none ∧
      validateRule JSValue.null (validators.max n msg) = none) :=
  ⟨fun _ => ⟨rfl, rfl, rfl⟩,
   fun _ _ => ⟨rfl, rfl, rfl⟩,
   fun _ _ => ⟨rfl, rfl, rfl⟩,
   fun _ _ => ⟨rfl, rfl, rfl⟩,
   fun _ => ⟨rfl, rfl, rfl⟩,
   fun _ _ => ⟨rfl, rfl⟩,
   fun _ _ => ⟨rfl, rfl⟩⟩

/-- C8: a field name with no configured rule trivially validates —
`validateField` returns true and leaves the state (in particular the
`errors` record) completely unchanged — and the result of `validate()`
is exactly the conjunction of the per-field pass flags over the keys of
the rule map, so fields without rules are never evaluated and cannot
make `validate()` false. -/
theorem no_rule_trivially_valid (rules : FormRules) (s : FormState)
    (name : String) :
    (rules.lookup name = none →
      validateField rules name s = (s, true)) ∧
    (validate rules s).2 =
      rules.all (fun p => fieldPasses rules s.values p.1) := by
  constructor
  · intro h
    simp [validateField, h]
  · unfold validate
    rw [validateGo_snd]
    simp

/-- Witness for C8: the name `"other"` has no rule in the email
scenario's rule map, so its validation succeeds with the state
untouched. -/
theorem no_rule_trivially_valid_witness :
    validateField emailRules "other" emailScenario0 =
      (emailScenario0, true) :=
  (no_rule_trivially_valid emailRules emailScenario0 "other").1 rfl

/-- C9: the field-binding adapter's derived status is `error` exactly
when an error message is present for the field, `success` exactly when
the field is touched and no error message is present, and `validating`
otherwise.  "Present" is the adapter's own observation of
`form.errors[name]` (lines 212, 217-221): truthy, i.e. an entry exists
and is a nonempty string — an absent entry reads as `undefined` and is
indistinguishable from no message. -/
theorem field_status_characterization (s : FormState) (name : String) :
    (fieldStatus s name = ValidateStatus.error ↔
      errTruthy (s.errors.lookup name) = true) ∧
    (fieldStatus s name = ValidateStatus.success ↔
      (errTruthy (s.errors.lookup name) = false ∧
        getb s.touched name = true)) ∧
    (fieldStatus s name = ValidateStatus.validating ↔
      (errTruthy (s.errors.lookup name) = false ∧
        getb s.touched name = false)) := by
  unfold fieldStatus
  cases he : errTruthy (s.errors.lookup name) <;>
    cases ht : getb s.touched name <;> simp

/-- C10: a validator that returns (or resolves to) a value that is
neither `true` nor a string — e.g. `false`, a number, `null` — is
treated as a failure, with the rule's configured message, or the default
`'验证失败'` when none is configured, stored as the error (lines 92-96). -/
theorem nontrue_nonstring_result_fails (rule : FormRule) (v r : JSValue)
    (f : JSValue → Except Unit JSValue)
    (hval : rule.validator = some f)
    (hres : f v = .ok r)
    (hnt : r ≠ JSValue.bool true)
    (hns : r.isStr = false)
    (hreq : (rule.required && isAbsent v) = false) :
    validateRule v rule = some (msgOr rule.message "验证失败") := by
  have hb : (r == JSValue.bool true) = false := by
    simp [hnt]
  simp only [validateRule, hreq, Bool.false_eq_true, if_false,
    runValidator, hval, hres, hb]
  cases r <;> simp_all [JSValue.isStr]

/-- Witness for C10: a validator resolving to `false` on a rule without
a configured message fails with the default message. -/
theorem nontrue_nonstring_result_fails_witness :
    validateRule (JSValue.num 1) falseResultRule = some "验证失败" := by
  have h := nontrue_nonstring_result_fails falseResultRule (JSValue.num 1)
    (JSValue.bool false) (fun _ => Except.ok (JSValue.bool false))
    rfl rfl (by decide) rfl rfl
  exact h.trans (by decide)

end UiForm
